import Mathlib

/-
Shallow embedding of the script-analysis core of the repository
(src/script_verifiers.py): text normalisation, the nine heuristic
analyzers, hashtag sanitisation, the virality blender, and the
two-path report builder with its remote-model collaborator.

Modelling conventions:
  * Python float arithmetic is modelled as exact rational arithmetic (ℚ);
    the builtin round (banker's rounding, round-half-to-even) is modelled
    by pyRound below, and round(x, n) by pyRound (x * 10^n) / 10^n.
  * Python str is modelled as String; regular-expression character classes
    are modelled over their ASCII meaning (the lexicons and all phrases in
    the source are ASCII).
  * Python set literals are modelled as lists in source order; every
    theorem below depends only on membership, never on iteration order.
  * The remote model (openai.ChatCompletion.create) is an external
    collaborator; it is modelled as an environment value (RemoteEnv)
    giving, for each of the two call sites, either a raised exception or
    the stripped response text together with the outcome of parsing that
    text as JSON.  Every report build also carries the number of remote
    calls it issued.
-/

/-- Round-half-to-even on ℚ, the semantics of the Python builtin round. -/
def pyRound (q : ℚ) : ℤ :=
  if q - ⌊q⌋ < 1 / 2 then ⌊q⌋
  else if 1 / 2 < q - ⌊q⌋ then ⌊q⌋ + 1
  else if ⌊q⌋ % 2 = 0 then ⌊q⌋ else ⌊q⌋ + 1

/-- Python round(x, 3). -/
def round3 (q : ℚ) : ℚ := (pyRound (q * 1000) : ℚ) / 1000

/-- Python round(x, 2). -/
def round2 (q : ℚ) : ℚ := (pyRound (q * 100) : ℚ) / 100

/-- Python max(0.0, min(1.0, x)). -/
def clamp01 (q : ℚ) : ℚ := max 0 (min 1 q)

/-- The whitespace class of the Python regex \s and of str.strip, at its
ASCII meaning: space, tab, newline, carriage return, vertical tab, form feed. -/
def pyIsSpace (c : Char) : Bool :=
  c == ' ' || c == '\t' || c == '\n' || c == '\r' ||
  c == Char.ofNat 11 || c == Char.ofNat 12

/-- The apostrophe character, part of the word class of _lower_words. -/
def apoChar : Char := Char.ofNat 39

/-- Character class [a-zA-Z0-9] of the tokenizer, plus the apostrophe. -/
def isWordChar (c : Char) : Bool :=
  ('a' ≤ c && c ≤ 'z') || ('A' ≤ c && c ≤ 'Z') || ('0' ≤ c && c ≤ '9') || c == apoChar

/-- Character class [A-Za-z0-9_] used by hashtag sanitisation and by \w. -/
def isTagChar (c : Char) : Bool :=
  ('A' ≤ c && c ≤ 'Z') || ('a' ≤ c && c ≤ 'z') || ('0' ≤ c && c ≤ '9') || c == '_'

/-- ASCII uppercase letter. -/
def isUpperAlpha (c : Char) : Bool := 'A' ≤ c && c ≤ 'Z'

/-- ASCII lowercase letter. -/
def isLowerAlpha (c : Char) : Bool := 'a' ≤ c && c ≤ 'z'

/-- Drop leading and trailing whitespace, the semantics of str.strip. -/
def stripBoth (l : List Char) : List Char :=
  ((l.dropWhile pyIsSpace).reverse.dropWhile pyIsSpace).reverse

/-- Collapse runs of whitespace to a single space (re.sub of \s+ by a space);
the flag records whether the previous character was whitespace. -/
def collapseWsAux : Bool → List Char → List Char
  | _, [] => []
  | prev, c :: rest =>
    if pyIsSpace c then
      if prev then collapseWsAux true rest else ' ' :: collapseWsAux true rest
    else c :: collapseWsAux false rest

/-- Source _normalize: collapse whitespace runs, then strip both ends. -/
def _normalize (s : String) : String :=
  String.mk (stripBoth (collapseWsAux false s.data))

/-- Maximal runs of characters satisfying p (re.findall of a character
class); cur accumulates the current run reversed. -/
def runsAux (p : Char → Bool) : List Char → List Char → List (List Char)
  | cur, [] => if cur.isEmpty then [] else [cur.reverse]
  | cur, c :: rest =>
    if p c then runsAux p (c :: cur) rest
    else if cur.isEmpty then runsAux p [] rest
    else cur.reverse :: runsAux p [] rest

/-- All maximal runs of characters satisfying p. -/
def splitRuns (p : Char → Bool) (l : List Char) : List (List Char) :=
  runsAux p [] l

/-- Python str.lower at its ASCII meaning. -/
def lowerStr (s : String) : String := String.mk (s.data.map Char.toLower)

/-- Source _lower_words: lowercase, then the maximal [a-zA-Z0-9']+ runs. -/
def _lower_words (s : String) : List String :=
  (splitRuns isWordChar (lowerStr s).data).map String.mk

/-- Source _sentences: split on runs of . ! ?, strip each piece, drop the
empty pieces. -/
def _sentences (s : String) : List String :=
  ((splitRuns (fun c => !(c == '.' || c == '!' || c == '?')) s.data).map
      stripBoth).filter (fun l => !l.isEmpty) |>.map String.mk

/-- Whether the first list is a prefix of the second, on characters. -/
def isHeadOfChars : List Char → List Char → Bool
  | [], _ => true
  | _ :: _, [] => false
  | a :: as, b :: bs => a == b && isHeadOfChars as bs

/-- Substring occurrence on characters. -/
def subOccurs (n : List Char) : List Char → Bool
  | [] => n.isEmpty
  | c :: rest => isHeadOfChars n (c :: rest) || subOccurs n rest

/-- Python substring containment: needle in hay. -/
def containsSub (needle hay : String) : Bool := subOccurs needle.data hay.data

/-- The POWER_HOOKS lexicon, in source order. -/
def POWER_HOOKS : List String :=
  ["what if", "did you know", String.mk ['h', 'e', 'r', 'e', apoChar, 's', ' ', 'w', 'h', 'y'],
   "stop", "warning", "the secret", "nobody tells you",
   String.mk ['d', 'o', 'n', apoChar, 't', ' ', 'm', 'a', 'k', 'e', ' ', 't', 'h', 'i', 's',
              ' ', 'm', 'i', 's', 't', 'a', 'k', 'e'],
   "3 things", "top 5",
   String.mk ['y', 'o', 'u', ' ', 'w', 'o', 'n', apoChar, 't', ' ', 'b', 'e', 'l', 'i', 'e',
              'v', 'e'],
   "the truth"]

/-- The CTA_PHRASES lexicon, in source order. -/
def CTA_PHRASES : List String :=
  ["subscribe", "follow", "like this", "comment", "share", "click the link",
   "link in bio", "check the description", "try this", "save this", "watch till the end"]

/-- The TOXIC_KEYWORDS lexicon, in source order. -/
def TOXIC_KEYWORDS : List String :=
  ["idiot", "stupid", "dumb", "hate", "kill", "trash", "loser", "shut up",
   "moron", "racist", "sexist", "terrorist"]

/-- The PROFANITY lexicon, in source order. -/
def PROFANITY : List String :=
  ["fuck", "shit", "bitch", "asshole", "bastard", "dick", "cunt"]

/-- The POSITIVE_WORDS lexicon, in source order. -/
def POSITIVE_WORDS : List String :=
  ["amazing", "great", "awesome", "love", "win", "success", "powerful",
   "easy", "simple", "best", "boost", "growth", "viral", "smart"]

/-- The NEGATIVE_WORDS lexicon, in source order. -/
def NEGATIVE_WORDS : List String :=
  ["bad", "worst", "hate", "fail", "hard", "problem", "risk", "danger",
   "scam", "loss", "decline"]

structure ToxResult where
  score : ℚ
  hits : List String

structure SentResult where
  score : ℚ
  label : String
  pos : Nat
  neg : Nat

structure CtaResult where
  present : Bool
  phrases : List String

structure HookResult where
  score : ℚ
  first_sentence : String
  power_hits : Nat

structure ReadResult where
  ease : ℚ
  level : String
  avg_words_per_sentence : ℚ
  avg_chars_per_word : ℚ

structure SafetyResult where
  safe : Bool
  hits : List String

structure GuideResult where
  platform : String
  compliant : Bool
  length_tokens : Nat
  within_length : Bool
  all_caps_ratio : ℚ
  minimal_caps : Bool
  profanity_hits : List String
  no_profanity : Bool

structure VocabResult where
  diversity : ℚ
  unique : Nat
  total : Nat

structure ToneResult where
  label : String
  candidates : List String

structure ViralResult where
  score : ℤ

/-- Source analyze_toxicity: count of tokenized words in the toxic or
profanity lexicons; score is min(1, hits/3), rounded to 3 decimals. -/
def analyze_toxicity (script : String) : ToxResult :=
  let words := _lower_words script
  let toxic_hits := words.filter (fun w => TOXIC_KEYWORDS.contains w || PROFANITY.contains w)
  let score : ℚ := min 1 ((toxic_hits.length : ℚ) / 3)
  { score := round3 score, hits := toxic_hits }

/-- The sentiment ratio (pos - neg) / max(1, pos + neg). -/
def sentimentCore (pos neg : Nat) : ℚ :=
  ((pos : ℚ) - (neg : ℚ)) / ((max 1 (pos + neg) : ℕ) : ℚ)

/-- The sentiment label of the source: positive above 0.15, negative below
-0.15, neutral otherwise. -/
def sentimentLabel (pos neg : Nat) : String :=
  if sentimentCore pos neg > 0.15 then "positive"
  else if sentimentCore pos neg < -0.15 then "negative"
  else "neutral"

/-- Source analyze_sentiment. -/
def analyze_sentiment (script : String) : SentResult :=
  let words := _lower_words script
  let pos := (words.filter (fun w => POSITIVE_WORDS.contains w)).length
  let neg := (words.filter (fun w => NEGATIVE_WORDS.contains w)).length
  { score := round3 (sentimentCore pos neg), label := sentimentLabel pos neg,
    pos := pos, neg := neg }

/-- Source detect_cta: substring containment of each CTA phrase in the
lowercased script. -/
def detect_cta (script : String) : CtaResult :=
  let text := lowerStr script
  let hits := CTA_PHRASES.filter (fun p => containsSub p text)
  { present := !hits.isEmpty, phrases := hits }

/-- Source measure_hook_strength: first sentence only, length score blended
with presence of a power-hook phrase. -/
def measure_hook_strength (script : String) : HookResult :=
  let first := match _sentences script with
    | [] => ""
    | f :: _ => lowerStr f
  let power_hits := (POWER_HOOKS.filter (fun ph => containsSub ph first)).length
  let length_words := (_lower_words first).length
  let length_score : ℚ :=
    if 4 ≤ length_words ∧ length_words ≤ 16 then 1
    else if length_words ≤ 24 then 0.5 else 0.2
  let score := max 0 (min 1 (0.6 * length_score + 0.4 * (if power_hits ≠ 0 then (1 : ℚ) else 0)))
  { score := round3 score, first_sentence := first, power_hits := power_hits }

/-- Source readability: crude ease proxy from average sentence and word
lengths, clamped to [0, 1]. -/
def readability (script : String) : ReadResult :=
  let words := _lower_words script
  let sentences := _sentences script
  let num_words := max 1 words.length
  let num_sentences := max 1 sentences.length
  let avg_words_per_sentence : ℚ := (num_words : ℚ) / (num_sentences : ℚ)
  let avg_chars_per_word : ℚ := ((words.map String.length).sum : ℚ) / (num_words : ℚ)
  let ease := max 0 (min 1 (1.2 - avg_words_per_sentence / 25 - avg_chars_per_word / 8))
  let level := if ease > 0.66 then "easy" else if ease > 0.33 then "medium" else "hard"
  { ease := round3 ease, level := level,
    avg_words_per_sentence := round2 avg_words_per_sentence,
    avg_chars_per_word := round2 avg_chars_per_word }

/-- Lexicographic order on characters, for the sorted() of brand_safety. -/
def lexLe : List Char → List Char → Bool
  | [], _ => true
  | _ :: _, [] => false
  | a :: as, b :: bs => if a < b then true else if b < a then false else lexLe as bs

/-- Insert a string into a lexicographically sorted list. -/
def insertStr (x : String) : List String → List String
  | [] => [x]
  | y :: ys => if lexLe x.data y.data then x :: y :: ys else y :: insertStr x ys

/-- Insertion sort on strings, the semantics of Python sorted(). -/
def sortStrs : List String → List String
  | [] => []
  | x :: xs => insertStr x (sortStrs xs)

/-- Source brand_safety: union of the caller banned list and PROFANITY,
matched by substring containment in the lowercased script; hits are the
sorted set of matches. -/
def brand_safety (script : String) (banned : List String) : SafetyResult :=
  let bannedAll := (banned ++ PROFANITY).dedup
  let text := lowerStr script
  let hits := sortStrs (bannedAll.filter (fun w => containsSub w text))
  { safe := hits.isEmpty, hits := hits }

/-- Source platform_guidelines: token-count range per platform, the ratio of
all-caps words (the regex finds maximal word-character runs made of at least
two uppercase letters), and profanity among tokens. -/
def platform_guidelines (script : String) (platform : String) : GuideResult :=
  let words := _lower_words script
  let tokens := words.length
  let caps := ((splitRuns isTagChar script.data).filter
      (fun r => 2 ≤ r.length && r.all isUpperAlpha)).length
  let all_caps_ratio : ℚ := (caps : ℚ) / ((max 1 words.length : ℕ) : ℚ)
  let profanity_hits := words.filter (fun w => PROFANITY.contains w)
  let target_min := if platform = "youtube_shorts" then 20 else 15
  let target_max := if platform = "youtube_shorts" then 55 else 70
  let within_length := decide (target_min ≤ tokens) && decide (tokens ≤ target_max)
  let minimal_caps := decide (all_caps_ratio < 0.05)
  let no_profanity := profanity_hits.isEmpty
  { platform := platform, compliant := within_length && minimal_caps && no_profanity,
    length_tokens := tokens, within_length := within_length,
    all_caps_ratio := round3 all_caps_ratio, minimal_caps := minimal_caps,
    profanity_hits := profanity_hits, no_profanity := no_profanity }

/-- Source vocabulary_diversity: unique over total among alphabetic-only
tokens. -/
def vocabulary_diversity (script : String) : VocabResult :=
  let words := (_lower_words script).filter
      (fun w => !w.data.isEmpty && w.data.all (fun c => isLowerAlpha c || isUpperAlpha c))
  let unique := words.dedup.length
  let total := max 1 words.length
  let diversity : ℚ := (unique : ℚ) / (total : ℚ)
  { diversity := round3 diversity, unique := unique, total := total }

/-- Source tone_classification: four keyword groups probed by substring
containment, first active label wins, else neutral. -/
def tone_classification (script : String) : ToneResult :=
  let text := lowerStr script
  let hit := fun (l : List String) => l.any (fun k => containsSub k text)
  let labels : List (String × Bool) :=
    [("persuasive", hit ["you", "now", "today", "must", "need to", "cta"]),
     ("informative", hit ["how to", "steps", "tip", "learn", "guide", "why"]),
     ("entertaining", hit ["funny", "joke", "crazy", "wild", "insane", "wow"]),
     ("story", hit ["story", "once", "i was", "we were", "learned"])]
  let active := (labels.filter (fun lb => lb.2)).map (fun lb => lb.1)
  { label := active.headD "neutral", candidates := active }

/-- Source virality_score: fixed-weight linear blend of the analyzer scores,
clamped to [0, 1] and scaled to an integer 0..100; the topic argument is
unused. -/
def virality_score (script : String) (topic : Option String) : ViralResult :=
  let tox := (analyze_toxicity script).score
  let sent := (analyze_sentiment script).score
  let hook := (measure_hook_strength script).score
  let cta : ℚ := if (detect_cta script).present then 1 else 0
  let read := (readability script).ease
  let vocab := (vocabulary_diversity script).diversity
  let base := 0.25 * hook + 0.2 * (0.5 + 0.5 * sent) + 0.15 * cta + 0.2 * read +
    0.15 * vocab + 0.05 * (1 - tox)
  { score := pyRound (clamp01 base * 100) }

/-- Python str.lower on a whole string, for case-insensitive dedup. -/
def strLower (s : String) : String := String.mk (s.data.map Char.toLower)

/-- One candidate of _sanitize_hashtags: strip, prefix with a hash sign if
missing, remove internal whitespace, keep only [A-Za-z0-9_] after the
leading hash signs, and discard results of length at most one. -/
def sanitizeTag (tag : String) : Option String :=
  match stripBoth tag.data with
  | [] => none
  | c :: rest =>
    let t1 := if c == '#' then c :: rest else '#' :: c :: rest
    let t2 := t1.filter (fun ch => !pyIsSpace ch)
    let core := (t2.dropWhile (fun ch => ch == '#')).filter isTagChar
    if core.isEmpty then none else some (String.mk ('#' :: core))

/-- The loop of _sanitize_hashtags: skip candidates that sanitise to
nothing or that repeat a seen lowercase form, and stop once the count
reaches max_tags (checked after appending, as in the source). -/
def sanitizeAux (maxTags : Nat) : List String → List String → Nat → List String
  | [], _, _ => []
  | tag :: rest, seen, count =>
    match sanitizeTag tag with
    | none => sanitizeAux maxTags rest seen count
    | some t =>
      if strLower t ∈ seen then sanitizeAux maxTags rest seen count
      else if maxTags ≤ count + 1 then [t]
      else t :: sanitizeAux maxTags rest (strLower t :: seen) (count + 1)

/-- Source _sanitize_hashtags. -/
def _sanitize_hashtags (tags : List String) (maxTags : Nat) : List String :=
  sanitizeAux maxTags tags [] 0

/-- Source _heuristic_hashtag_suggestions: fixed seeds, a topic-derived tag
when the topic is a nonempty string, two sentiment-dependent tags, then
sanitisation capped at six. -/
def _heuristic_hashtag_suggestions (topic : Option String) (sentiment_label : String) :
    List String :=
  let base := ["#Shorts", "#viral", "#fyp"]
  let base := match topic with
    | none => base
    | some t =>
      if t = "" then base
      else
        let cleaned := String.mk (t.data.filter (fun c => !pyIsSpace c))
        if cleaned = "" then base else base ++ ["#" ++ cleaned]
  let base :=
    if sentiment_label = "positive" then base ++ ["#growth", "#success"]
    else if sentiment_label = "negative" then base ++ ["#lessons", "#truth"]
    else base ++ ["#learn", "#tips"]
  _sanitize_hashtags base 6

/-- A parsed JSON value, as produced by json.loads. -/
inductive PyVal where
  | null : PyVal
  | bool (b : Bool) : PyVal
  | int (n : ℤ) : PyVal
  | rat (q : ℚ) : PyVal
  | str (s : String) : PyVal
  | list (l : List PyVal) : PyVal
  | dict (entries : List (String × PyVal)) : PyVal

/-- A Python dict with string keys, as an association list. -/
def PyDict := List (String × PyVal)

/-- Python dict.get with a default. -/
def dictGet (d : PyDict) (key : String) (dfl : PyVal) : PyVal :=
  match d with
  | [] => dfl
  | (k, v) :: rest => if k = key then v else dictGet rest key dfl

/-- Python dict item assignment: replace the first binding or append. -/
def dictSet (d : PyDict) (key : String) (v : PyVal) : PyDict :=
  match d with
  | [] => [(key, v)]
  | (k, w) :: rest => if k = key then (k, v) :: rest else (k, w) :: dictSet rest key v

/-- The string elements of a JSON list: _sanitize_hashtags skips every
non-string candidate via its isinstance check. -/
def pyStrOf : PyVal → Option String
  | .str s => some s
  | _ => none

/-- Applying _sanitize_hashtags to an arbitrary JSON value: iterating a
list yields its elements, iterating a string yields its characters,
iterating a dict yields its keys, and every other value raises TypeError
(returned as none, to be caught by the enclosing handler). -/
def sanitizeFromPyVal (v : PyVal) (maxTags : Nat) : Option (List String) :=
  match v with
  | .list l => some (_sanitize_hashtags (l.filterMap pyStrOf) maxTags)
  | .str s => some (_sanitize_hashtags (s.data.map String.singleton) maxTags)
  | .dict d => some (_sanitize_hashtags (d.map (fun kv => kv.1)) maxTags)
  | _ => none

/-- re.split on newline or comma, with each piece stripped and empty pieces
dropped: the non-JSON recovery of llm_hashtag_suggestions. -/
def splitTags (raw : String) : List String :=
  ((splitRuns (fun c => !(c == '\n' || c == ',')) raw.data).map stripBoth).filter
    (fun l => !l.isEmpty) |>.map String.mk

/-- Outcome of one remote-model call: either the call raised, or it
returned response text together with the result of parsing that text as
JSON (none when json.loads raises). -/
inductive CallOutcome where
  | exn : CallOutcome
  | text (raw : String) (parsed : Option PyVal) : CallOutcome

/-- The remote collaborator: whether credentials are configured, and the
outcome of each of the two possible calls of one report build. -/
structure RemoteEnv where
  apiKey : Bool
  analyzeOutcome : CallOutcome
  hashtagOutcome : CallOutcome

/-- Processing of the remote response inside llm_analyze_verifiers: the
parsed value must be a dict (anything else raises on data.get and is
caught), its hashtags entry is sanitised (a TypeError there is caught),
and the sanitised list is written back into the dict. -/
def llmAnalyzeResult (o : CallOutcome) (maxTags : Nat) : Option PyDict :=
  match o with
  | .exn => none
  | .text _ none => none
  | .text _ (some v) =>
    match v with
    | .dict d =>
      match sanitizeFromPyVal (dictGet d "hashtags" (.list [])) maxTags with
      | some tags => some (dictSet d "hashtags" (.list (tags.map PyVal.str)))
      | none => none
    | _ => none

/-- Source llm_analyze_verifiers: returns none without a call when no
credentials are configured, otherwise issues exactly one remote call and
returns none on any failure.  The pair carries the number of calls. -/
def llm_analyze_verifiers (env : RemoteEnv) (script : String) (topic : Option String)
    (platform : String) (trending : Option (List String)) (maxTags : Nat) :
    Option PyDict × Nat :=
  if env.apiKey = false then (none, 0)
  else (llmAnalyzeResult env.analyzeOutcome maxTags, 1)

/-- Processing of the remote response inside llm_hashtag_suggestions: on a
raised call fall back to the heuristic list; on non-JSON text split it on
newlines and commas; on a JSON value sanitise it, falling back to the
heuristic list when sanitisation raises TypeError. -/
def llmHashtagResult (o : CallOutcome) (topic : Option String) (sentiment_label : String)
    (maxTags : Nat) : List String :=
  match o with
  | .exn => _heuristic_hashtag_suggestions topic sentiment_label
  | .text raw none => _sanitize_hashtags (splitTags raw) maxTags
  | .text _ (some v) =>
    match sanitizeFromPyVal v maxTags with
    | some tags => tags
    | none => _heuristic_hashtag_suggestions topic sentiment_label

/-- Source llm_hashtag_suggestions: heuristic list without a call when no
credentials are configured, otherwise exactly one remote call whose
response is processed by llmHashtagResult. -/
def llm_hashtag_suggestions (env : RemoteEnv) (script : String) (topic : Option String)
    (sentiment_label : String) (trending : Option (List String)) (maxTags : Nat) :
    List String × Nat :=
  if env.apiKey = false then (_heuristic_hashtag_suggestions topic sentiment_label, 0)
  else (llmHashtagResult env.hashtagOutcome topic sentiment_label maxTags, 1)

/-- A value of the unified report: one analyzer result, a hashtag list, or
a value passed through from the remote report. -/
inductive RV where
  | tox (r : ToxResult) : RV
  | sent (r : SentResult) : RV
  | ctaR (r : CtaResult) : RV
  | hookR (r : HookResult) : RV
  | readR (r : ReadResult) : RV
  | safety (r : SafetyResult) : RV
  | guide (r : GuideResult) : RV
  | vocab (r : VocabResult) : RV
  | toneR (r : ToneResult) : RV
  | viral (r : ViralResult) : RV
  | tags (l : List String) : RV
  | raw (v : PyVal) : RV

/-- The unified report: the top-level mapping returned by analyze_script. -/
def Report := List (String × RV)

/-- Reshaping of a successful remote report inside analyze_script.  The
toxicity entry is rebuilt by calling .get on the value under "toxicity";
when that value is not a dict this raises AttributeError, which no handler
catches (modelled as error).  Vocabulary diversity is always computed
locally. -/
def reshapeLlmReport (d : PyDict) (script : String) : Except Unit Report :=
  match dictGet d "toxicity" (.dict []) with
  | .dict td =>
    .ok [("toxicity", .raw (.dict [("score", dictGet td "score" (.rat 0)),
                                   ("hits", .list []),
                                   ("label", dictGet td "label" (.str "safe"))])),
         ("sentiment", .raw (dictGet d "sentiment" (.dict []))),
         ("cta", .raw (dictGet d "cta" (.dict []))),
         ("hook", .raw (dictGet d "hook" (.dict []))),
         ("readability", .raw (dictGet d "readability" (.dict []))),
         ("brand_safety", .raw (dictGet d "brand_safety" (.dict []))),
         ("tone", .raw (dictGet d "tone" (.dict []))),
         ("virality", .raw (dictGet d "virality" (.dict []))),
         ("platform_guidelines", .raw (dictGet d "platform_guidelines" (.dict []))),
         ("suggested_hashtags", .raw (dictGet d "hashtags" (.list []))),
         ("vocabulary", .vocab (vocabulary_diversity script))]
  | _ => .error ()

/-- The heuristic path of analyze_script: all nine analyzers, the virality
blend, and the hashtag engine (which may itself call the remote model).
The pair carries the number of remote calls. -/
def heuristicTail (env : RemoteEnv) (script : String) (topic : Option String)
    (platform : String) (trending : Option (List String)) : Report × Nat :=
  let tox := analyze_toxicity script
  let sent := analyze_sentiment script
  let cta := detect_cta script
  let hook := measure_hook_strength script
  let read := readability script
  let safety := brand_safety script []
  let vocab := vocabulary_diversity script
  let tone := tone_classification script
  let viral := virality_score script topic
  let guide := platform_guidelines script platform
  let hn := llm_hashtag_suggestions env script topic sent.label trending 6
  ([("toxicity", .tox tox), ("sentiment", .sent sent), ("cta", .ctaR cta),
    ("hook", .hookR hook), ("readability", .readR read), ("brand_safety", .safety safety),
    ("platform_guidelines", .guide guide), ("vocabulary", .vocab vocab),
    ("tone", .toneR tone), ("virality", .viral viral), ("suggested_hashtags", .tags hn.1)],
   hn.2)

/-- Source analyze_script: normalise, optionally attempt the remote report
(one call), reshape it on success (which can raise, see reshapeLlmReport),
and otherwise fall through to the heuristic path.  The nat component is
the number of remote calls issued during the build. -/
def analyze_script (env : RemoteEnv) (script : String) (topic : Option String)
    (platform : String) (trending : Option (List String)) (use_llm : Bool) :
    Except Unit Report × Nat :=
  let script := _normalize script
  if use_llm then
    let rn := llm_analyze_verifiers env script topic platform trending 6
    match rn.1 with
    | some d =>
      match d with
      | [] =>
        let hn := heuristicTail env script topic platform trending
        (.ok hn.1, rn.2 + hn.2)
      | _ :: _ =>
        match reshapeLlmReport d script with
        | .ok r => (.ok r, rn.2)
        | .error e => (.error e, rn.2)
    | none =>
      let hn := heuristicTail env script topic platform trending
      (.ok hn.1, rn.2 + hn.2)
  else
    let hn := heuristicTail env script topic platform trending
    (.ok hn.1, hn.2)

/-- Position bookkeeping of the sanitisation loop: every element except
possibly the last was appended strictly below the cap. -/
def okCount (maxTags : Nat) : Nat → List String → Prop
  | _, [] => True
  | count, _ :: rest => (rest = [] ∨ count + 1 < maxTags) ∧ okCount maxTags (count + 1) rest

/-- The demo script of the source module. -/
def demoScript : String :=
  "Stop scrolling! 3 things creators forget that cost views. Hook fast, add value, and end with a strong call to action. Try this today and tell me how it goes."

theorem floor_le_pyRound (q : ℚ) : ⌊q⌋ ≤ pyRound q := by
  unfold pyRound; split_ifs <;> omega

theorem pyRound_le_floor_add_one (q : ℚ) : pyRound q ≤ ⌊q⌋ + 1 := by
  unfold pyRound; split_ifs <;> omega

theorem pyRound_nonneg (q : ℚ) (h : 0 ≤ q) : 0 ≤ pyRound q := by
  have h0 : (0 : ℤ) ≤ ⌊q⌋ := by
    rw [Int.le_floor]; exact_mod_cast h
  have := floor_le_pyRound q
  omega

theorem pyRound_le_of_le (q : ℚ) (n : ℤ) (h : q ≤ (n : ℚ)) : pyRound q ≤ n := by
  have hfl : ⌊q⌋ ≤ n := by
    have := Int.floor_mono h
    simpa using this
  unfold pyRound
  split_ifs with h1 h2 h3
  · exact hfl
  · have hq : (⌊q⌋ : ℚ) < q := by linarith
    have hlt : (⌊q⌋ : ℚ) < (n : ℚ) := lt_of_lt_of_le hq h
    have : ⌊q⌋ < n := by exact_mod_cast hlt
    omega
  · exact hfl
  · have hq : (⌊q⌋ : ℚ) < q := by linarith
    have hlt : (⌊q⌋ : ℚ) < (n : ℚ) := lt_of_lt_of_le hq h
    have : ⌊q⌋ < n := by exact_mod_cast hlt
    omega

theorem pyRound_mono {q r : ℚ} (h : q ≤ r) : pyRound q ≤ pyRound r := by
  rcases lt_or_le ⌊q⌋ ⌊r⌋ with hf | hf
  · have h1 := pyRound_le_floor_add_one q
    have h2 := floor_le_pyRound r
    omega
  · have hf2 : ⌊q⌋ ≤ ⌊r⌋ := Int.floor_mono h
    have hfe : ⌊q⌋ = ⌊r⌋ := le_antisymm hf2 hf
    have hfr : q - (⌊r⌋ : ℚ) ≤ r - (⌊r⌋ : ℚ) := by linarith
    unfold pyRound
    rw [hfe]
    split_ifs <;> first | omega | (exfalso; linarith)

theorem pyRound_intCast (n : ℤ) : pyRound ((n : ℤ) : ℚ) = n := by
  unfold pyRound
  rw [Int.floor_intCast, sub_self]
  norm_num

theorem round3_mono {q r : ℚ} (h : q ≤ r) : round3 q ≤ round3 r := by
  unfold round3
  have hm := pyRound_mono (show q * 1000 ≤ r * 1000 by linarith)
  have hc : ((pyRound (q * 1000) : ℤ) : ℚ) ≤ ((pyRound (r * 1000) : ℤ) : ℚ) := by
    exact_mod_cast hm
  linarith

theorem round3_one : round3 1 = 1 := by
  unfold round3
  have h : (1 : ℚ) * 1000 = ((1000 : ℤ) : ℚ) := by norm_num
  rw [h, pyRound_intCast]
  norm_num

theorem clamp01_nonneg (q : ℚ) : 0 ≤ clamp01 q := le_max_left 0 _

theorem clamp01_le_one (q : ℚ) : clamp01 q ≤ 1 := max_le (by norm_num) (min_le_left 1 q)

theorem pyRound_clamp_nonneg (q : ℚ) : 0 ≤ pyRound (clamp01 q * 100) :=
  pyRound_nonneg _ (mul_nonneg (clamp01_nonneg q) (by norm_num))

theorem pyRound_clamp_le_hundred (q : ℚ) : pyRound (clamp01 q * 100) ≤ 100 :=
  pyRound_le_of_le _ 100 (by have := clamp01_le_one q; push_cast; linarith)

/-- C10: the topic argument of virality_score has no effect on its result:
for every script and any two topic values the score is the same. -/
theorem C10_topic_has_no_effect (script : String) (t1 t2 : Option String) :
    virality_score script t1 = virality_score script t2 := rfl

/-- C4: for every input string (the empty string included) and every topic,
virality_score returns an integer score in [0, 100], computed as the
round-half-to-even of clamp(0.25 hook + 0.2 sentiment01 + 0.15 cta +
0.2 readability ease + 0.15 vocabulary diversity + 0.05 (1 - toxicity),
0, 1) times 100, with sentiment01 = 0.5 + 0.5 sentiment. -/
theorem C4_virality_range_and_formula (script : String) (topic : Option String) :
    0 ≤ (virality_score script topic).score ∧
    (virality_score script topic).score ≤ 100 ∧
    (virality_score script topic).score =
      pyRound (clamp01 (0.25 * (measure_hook_strength script).score +
        0.2 * (0.5 + 0.5 * (analyze_sentiment script).score) +
        0.15 * (if (detect_cta script).present then (1 : ℚ) else 0) +
        0.2 * (readability script).ease +
        0.15 * (vocabulary_diversity script).diversity +
        0.05 * (1 - (analyze_toxicity script).score)) * 100) := by
  refine ⟨?_, ?_, rfl⟩
  · exact pyRound_clamp_nonneg _
  · exact pyRound_clamp_le_hundred _

/-- C5: the sentiment label is positive iff (pos - neg) / max(1, pos + neg)
is strictly above 0.15, negative iff strictly below -0.15, and neutral
otherwise, for all counts; and analyze_sentiment labels every script by
that rule applied to its own pos and neg counts. -/
theorem C5_sentiment_label_iff :
    (∀ pos neg : Nat,
      (sentimentLabel pos neg = "positive" ↔ sentimentCore pos neg > 0.15) ∧
      (sentimentLabel pos neg = "negative" ↔ sentimentCore pos neg < -0.15) ∧
      (sentimentLabel pos neg = "neutral" ↔
        ¬ sentimentCore pos neg > 0.15 ∧ ¬ sentimentCore pos neg < -0.15)) ∧
    ∀ script : String,
      (analyze_sentiment script).label =
        sentimentLabel (analyze_sentiment script).pos (analyze_sentiment script).neg := by
  refine ⟨fun pos neg => ?_, fun script => rfl⟩
  unfold sentimentLabel
  split_ifs with h1 h2
  · exact ⟨iff_of_true rfl h1,
      iff_of_false (by decide) (fun hc => absurd h1 (by linarith)),
      iff_of_false (by decide) (fun hc => hc.1 h1)⟩
  · exact ⟨iff_of_false (by decide) h1,
      iff_of_true rfl h2,
      iff_of_false (by decide) (fun hc => hc.2 h2)⟩
  · exact ⟨iff_of_false (by decide) h1,
      iff_of_false (by decide) h2,
      iff_of_true rfl ⟨h1, h2⟩⟩

/-- C6: the toxicity score is monotonic non-decreasing in the number of
tokenized words matching the toxic or profanity lexicons, and any script
with at least three matches scores exactly 1. -/
theorem C6_toxicity_monotone_saturating (s1 s2 s3 : String)
    (h12 : (analyze_toxicity s1).hits.length ≤ (analyze_toxicity s2).hits.length)
    (h3 : 3 ≤ (analyze_toxicity s3).hits.length) :
    (analyze_toxicity s1).score ≤ (analyze_toxicity s2).score ∧
    (analyze_toxicity s3).score = 1 := by
  have hs : ∀ s : String, (analyze_toxicity s).score =
      round3 (min 1 (((analyze_toxicity s).hits.length : ℚ) / 3)) := fun _ => rfl
  constructor
  · rw [hs s1, hs s2]
    apply round3_mono
    have hc : ((analyze_toxicity s1).hits.length : ℚ) ≤
        ((analyze_toxicity s2).hits.length : ℚ) := by exact_mod_cast h12
    exact min_le_min le_rfl (by linarith)
  · rw [hs s3]
    have hc : (3 : ℚ) ≤ ((analyze_toxicity s3).hits.length : ℚ) := by exact_mod_cast h3
    have hmin : min 1 (((analyze_toxicity s3).hits.length : ℚ) / 3) = 1 :=
      min_eq_left (by linarith)
    rw [hmin, round3_one]

/-- Witness for C6 at concrete scripts with one, two and three lexicon
matches. -/
theorem C6_witness :
    ((analyze_toxicity "idiot").hits.length ≤ (analyze_toxicity "idiot trash").hits.length ∧
     3 ≤ (analyze_toxicity "hate kill trash").hits.length) ∧
    ((analyze_toxicity "idiot").score ≤ (analyze_toxicity "idiot trash").score ∧
     (analyze_toxicity "hate kill trash").score = 1) :=
  ⟨⟨by decide, by decide⟩,
   C6_toxicity_monotone_saturating "idiot" "idiot trash" "hate kill trash"
     (by decide) (by decide)⟩

theorem llm_analyze_calls_le (env : RemoteEnv) (script : String) (topic : Option String)
    (platform : String) (trending : Option (List String)) (maxTags : Nat) :
    (llm_analyze_verifiers env script topic platform trending maxTags).2 ≤ 1 := by
  unfold llm_analyze_verifiers
  split_ifs <;> simp

theorem llm_analyze_calls_zero (env : RemoteEnv) (script : String) (topic : Option String)
    (platform : String) (trending : Option (List String)) (maxTags : Nat)
    (hk : env.apiKey = false) :
    (llm_analyze_verifiers env script topic platform trending maxTags).2 = 0 := by
  simp [llm_analyze_verifiers, hk]

theorem llm_hashtag_calls_le (env : RemoteEnv) (script : String) (topic : Option String)
    (sentiment_label : String) (trending : Option (List String)) (maxTags : Nat) :
    (llm_hashtag_suggestions env script topic sentiment_label trending maxTags).2 ≤ 1 := by
  unfold llm_hashtag_suggestions
  split_ifs <;> simp

theorem llm_hashtag_calls_zero (env : RemoteEnv) (script : String) (topic : Option String)
    (sentiment_label : String) (trending : Option (List String)) (maxTags : Nat)
    (hk : env.apiKey = false) :
    (llm_hashtag_suggestions env script topic sentiment_label trending maxTags).2 = 0 := by
  simp [llm_hashtag_suggestions, hk]

theorem heurTail_calls_eq (env : RemoteEnv) (script : String) (topic : Option String)
    (platform : String) (trending : Option (List String)) :
    (heuristicTail env script topic platform trending).2 =
      (llm_hashtag_suggestions env script topic (analyze_sentiment script).label
        trending 6).2 := rfl

theorem heurTail_calls_le (env : RemoteEnv) (script : String) (topic : Option String)
    (platform : String) (trending : Option (List String)) :
    (heuristicTail env script topic platform trending).2 ≤ 1 := by
  rw [heurTail_calls_eq]
  exact llm_hashtag_calls_le env script topic (analyze_sentiment script).label trending 6

theorem heurTail_calls_zero (env : RemoteEnv) (script : String) (topic : Option String)
    (platform : String) (trending : Option (List String)) (hk : env.apiKey = false) :
    (heuristicTail env script topic platform trending).2 = 0 := by
  rw [heurTail_calls_eq]
  exact llm_hashtag_calls_zero env script topic (analyze_sentiment script).label trending 6 hk

theorem analyze_calls_le_two (env : RemoteEnv) (script : String) (topic : Option String)
    (platform : String) (trending : Option (List String)) (use_llm : Bool) :
    (analyze_script env script topic platform trending use_llm).2 ≤ 2 := by
  have hh := heurTail_calls_le env (_normalize script) topic platform trending
  have ha := llm_analyze_calls_le env (_normalize script) topic platform trending 6
  cases use_llm with
  | false =>
    simp only [analyze_script, Bool.false_eq_true, if_false]
    omega
  | true =>
    simp only [analyze_script, if_true]
    rcases h1 : (llm_analyze_verifiers env (_normalize script) topic platform trending 6).1
      with _ | d
    · simp only [h1]
      omega
    · simp only [h1]
      cases d with
      | nil => simp only []; omega
      | cons kv rest =>
        cases h2 : reshapeLlmReport (kv :: rest) (_normalize script) with
        | error e => simp only [h2]; omega
        | ok r => simp only [h2]; omega

theorem analyze_calls_le_one_heuristic (env : RemoteEnv) (script : String)
    (topic : Option String) (platform : String) (trending : Option (List String)) :
    (analyze_script env script topic platform trending false).2 ≤ 1 := by
  have hh := heurTail_calls_le env (_normalize script) topic platform trending
  simp only [analyze_script, Bool.false_eq_true, if_false]
  omega

theorem analyze_calls_zero (env : RemoteEnv) (script : String) (topic : Option String)
    (platform : String) (trending : Option (List String)) (use_llm : Bool)
    (hk : env.apiKey = false) :
    (analyze_script env script topic platform trending use_llm).2 = 0 := by
  have hh := heurTail_calls_zero env (_normalize script) topic platform trending hk
  have ha := llm_analyze_calls_zero env (_normalize script) topic platform trending 6 hk
  cases use_llm with
  | false =>
    simp only [analyze_script, Bool.false_eq_true, if_false]
    omega
  | true =>
    simp only [analyze_script, if_true]
    rcases h1 : (llm_analyze_verifiers env (_normalize script) topic platform trending 6).1
      with _ | d
    · simp only [h1]
      omega
    · simp only [h1]
      cases d with
      | nil => simp only []; omega
      | cons kv rest =>
        cases h2 : reshapeLlmReport (kv :: rest) (_normalize script) with
        | error e => simp only [h2]; omega
        | ok r => simp only [h2]; omega

/-- C2 counterexample: with credentials configured and a failing remote
report attempt, the heuristic fallback issues a second remote call through
the hashtag engine, so one report build issues two remote calls, not at
most one. -/
theorem C2_counterexample_two_calls :
    ¬ ((analyze_script ⟨true, .exn, .exn⟩ "hi" none "youtube_shorts" none true).2 ≤ 1) := by
  decide

/-- C2 amended: every report build issues at most two remote-model calls
(one by the report-level attempt, one by the hashtag engine on the
heuristic path); a build without the remote-model flag issues at most one
call (the hashtag engine still calls the remote model when credentials are
present), and a build without credentials issues none. -/
theorem C2_amended_call_bounds (key : Bool) (a h : CallOutcome) (script : String)
    (topic : Option String) (platform : String) (trending : Option (List String))
    (use_llm : Bool) :
    (analyze_script ⟨key, a, h⟩ script topic platform trending use_llm).2 ≤ 2 ∧
    (analyze_script ⟨key, a, h⟩ script topic platform trending false).2 ≤ 1 ∧
    (analyze_script ⟨false, a, h⟩ script topic platform trending use_llm).2 = 0 :=
  ⟨analyze_calls_le_two ⟨key, a, h⟩ script topic platform trending use_llm,
   analyze_calls_le_one_heuristic ⟨key, a, h⟩ script topic platform trending,
   analyze_calls_zero ⟨false, a, h⟩ script topic platform trending use_llm rfl⟩

/-- C1: the claim fails on the code.  When the remote-model attempt is made
and returns the valid JSON object binding "toxicity" to the string "high"
(a schema violation the code never validates), analyze_script raises
AttributeError while reshaping (modelled as an error result) and returns
no report at all, rather than a report with the eleven documented keys. -/
theorem C1_no_report_on_malformed_toxicity :
    (analyze_script ⟨true, .text "a json object with toxicity bound to a string"
        (some (.dict [("toxicity", .str "high")])), .exn⟩
      "hello" none "youtube_shorts" none true).1 = .error () := rfl

/-- C3: the claim fails on the code.  A remote response that is a valid
JSON object whose "toxicity" value is a number (a malformed schema, one of
the failure modes the claim lists) makes analyze_script raise
AttributeError to the caller (modelled as an error result) instead of
absorbing the failure into the heuristic path. -/
theorem C3_raises_on_malformed_schema :
    (analyze_script ⟨true, .text "a json object with toxicity bound to a number"
        (some (.dict [("toxicity", .int 1)])), .exn⟩
      "a" none "youtube_shorts" none true).1 = .error () := rfl

/-- C9: on the demo script analyzed without the remote model, CTA detection
is positive with "try this" among the matched phrases, the hook analyzer
counts at least one power-hook phrase in the first sentence, and the
platform-guidelines token count equals the total tokenized word count. -/
theorem C9_demo_scenario :
    (detect_cta (_normalize demoScript)).present = true ∧
    "try this" ∈ (detect_cta (_normalize demoScript)).phrases ∧
    1 ≤ (measure_hook_strength (_normalize demoScript)).power_hits ∧
    (platform_guidelines (_normalize demoScript) "youtube_shorts").length_tokens =
      (_lower_words (_normalize demoScript)).length :=
  ⟨by decide, by decide, by decide, rfl⟩

theorem tagChar_not_space {c : Char} (h : isTagChar c = true) : pyIsSpace c = false := by
  cases hps : pyIsSpace c
  · rfl
  · exfalso
    unfold pyIsSpace at hps
    simp only [Bool.or_eq_true, beq_iff_eq] at hps
    rcases hps with ((((h1 | h1) | h1) | h1) | h1) | h1 <;> subst h1 <;>
      exact absurd h (by decide)

theorem tagChar_ne_hash {c : Char} (h : isTagChar c = true) : (c == '#') = false := by
  cases hc : c == '#'
  · rfl
  · exfalso
    have hceq : c = '#' := eq_of_beq hc
    subst hceq
    exact absurd h (by decide)

theorem dropWhile_eq_self_of_none {p : Char → Bool} {l : List Char}
    (h : ∀ c ∈ l, p c = false) : l.dropWhile p = l := by
  cases l with
  | nil => rfl
  | cons c rest => simp [List.dropWhile_cons, h c (List.mem_cons_self c rest)]

theorem strip_eq_self {l : List Char} (h : ∀ c ∈ l, pyIsSpace c = false) :
    stripBoth l = l := by
  unfold stripBoth
  rw [dropWhile_eq_self_of_none h,
    dropWhile_eq_self_of_none (fun c hc => h c (List.mem_reverse.mp hc))]
  exact List.reverse_reverse l

theorem sanitize_core_case {X : List Char} {t : String}
    (h : (if ((X.dropWhile (fun ch => ch == '#')).filter isTagChar).isEmpty = true then none
          else some (String.mk
            ('#' :: (X.dropWhile (fun ch => ch == '#')).filter isTagChar))) = some t) :
    ∃ core : List Char, t = String.mk ('#' :: core) ∧ core ≠ [] ∧
      ∀ c ∈ core, isTagChar c = true := by
  split at h
  · simp at h
  · rename_i hne
    injection h with h
    subst h
    refine ⟨_, rfl, ?_, fun ch hch => List.of_mem_filter hch⟩
    intro hnil
    rw [hnil] at hne
    simp at hne

theorem sanitizeTag_some {tag t : String} (h : sanitizeTag tag = some t) :
    ∃ core : List Char, t = String.mk ('#' :: core) ∧ core ≠ [] ∧
      ∀ c ∈ core, isTagChar c = true := by
  unfold sanitizeTag at h
  rcases hs : stripBoth tag.data with _ | ⟨c, rest⟩ <;> rw [hs] at h
  · simp at h
  · dsimp only at h
    exact sanitize_core_case h

theorem sanitizeTag_fixed {core : List Char} (hne : core ≠ [])
    (hall : ∀ c ∈ core, isTagChar c = true) :
    sanitizeTag (String.mk ('#' :: core)) = some (String.mk ('#' :: core)) := by
  have hnosp : ∀ c ∈ '#' :: core, pyIsSpace c = false := by
    intro c hc
    rcases List.mem_cons.mp hc with rfl | hc2
    · decide
    · exact tagChar_not_space (hall c hc2)
  have hfil : ('#' :: core).filter (fun ch => !pyIsSpace ch) = '#' :: core :=
    List.filter_eq_self.mpr (fun c hc => by rw [hnosp c hc]; rfl)
  have hdrop : ('#' :: core).dropWhile (fun ch => ch == '#') = core := by
    rw [List.dropWhile_cons]
    simp only [beq_self_eq_true, if_true]
    exact dropWhile_eq_self_of_none (fun c hc => tagChar_ne_hash (hall c hc))
  have hfil2 : core.filter isTagChar = core := List.filter_eq_self.mpr hall
  unfold sanitizeTag
  have hdata : (String.mk ('#' :: core)).data = '#' :: core := rfl
  rw [hdata, strip_eq_self hnosp]
  dsimp only
  simp only [beq_self_eq_true, if_true, hfil, hdrop, hfil2]
  cases core with
  | nil => exact absurd rfl hne
  | cons a as => rfl

theorem sanitizeAux_mem (maxTags : Nat) :
    ∀ (l seen : List String) (count : Nat) (t : String),
      t ∈ sanitizeAux maxTags l seen count → ∃ tag, tag ∈ l ∧ sanitizeTag tag = some t := by
  intro l
  induction l with
  | nil => intro seen count t h; simp [sanitizeAux] at h
  | cons tag rest ih =>
    intro seen count t h
    simp only [sanitizeAux] at h
    rcases hst : sanitizeTag tag with _ | u <;> simp only [hst] at h
    · obtain ⟨tag2, hm, hs2⟩ := ih seen count t h
      exact ⟨tag2, List.mem_cons_of_mem _ hm, hs2⟩
    · by_cases hm : strLower u ∈ seen
      · rw [if_pos hm] at h
        obtain ⟨tag2, hm2, hs2⟩ := ih seen count t h
        exact ⟨tag2, List.mem_cons_of_mem _ hm2, hs2⟩
      · rw [if_neg hm] at h
        by_cases hq : maxTags ≤ count + 1
        · rw [if_pos hq] at h
          rw [List.mem_singleton] at h
          subst h
          exact ⟨tag, List.mem_cons_self tag rest, hst⟩
        · rw [if_neg hq] at h
          rcases List.mem_cons.mp h with rfl | h2
          · exact ⟨tag, List.mem_cons_self tag rest, hst⟩
          · obtain ⟨tag2, hm2, hs2⟩ := ih (strLower u :: seen) (count + 1) t h2
            exact ⟨tag2, List.mem_cons_of_mem _ hm2, hs2⟩

theorem sanitizeAux_nodup_fresh (maxTags : Nat) :
    ∀ (l seen : List String) (count : Nat),
      ((sanitizeAux maxTags l seen count).map strLower).Nodup ∧
      ∀ t ∈ sanitizeAux maxTags l seen count, strLower t ∉ seen := by
  intro l
  induction l with
  | nil => intro seen count; simp [sanitizeAux]
  | cons tag rest ih =>
    intro seen count
    simp only [sanitizeAux]
    rcases hst : sanitizeTag tag with _ | u <;> simp only [hst]
    · exact ih seen count
    · by_cases hm : strLower u ∈ seen
      · simp only [if_pos hm]
        exact ih seen count
      · simp only [if_neg hm]
        by_cases hq : maxTags ≤ count + 1
        · simp only [if_pos hq]
          constructor
          · simp
          · intro t ht
            rw [List.mem_singleton] at ht
            subst ht
            exact hm
        · simp only [if_neg hq]
          obtain ⟨hnd, hfr⟩ := ih (strLower u :: seen) (count + 1)
          constructor
          · rw [List.map_cons, List.nodup_cons]
            refine ⟨?_, hnd⟩
            intro hmem
            rw [List.mem_map] at hmem
            obtain ⟨t, ht, heq⟩ := hmem
            exact hfr t ht (heq ▸ List.mem_cons_self _ _)
          · intro t ht
            rcases List.mem_cons.mp ht with rfl | ht2
            · exact hm
            · intro hseen
              exact hfr t ht2 (List.mem_cons_of_mem _ hseen)

theorem sanitizeAux_okCount (maxTags : Nat) :
    ∀ (l seen : List String) (count : Nat),
      okCount maxTags count (sanitizeAux maxTags l seen count) := by
  intro l
  induction l with
  | nil => intro seen count; simp [sanitizeAux, okCount]
  | cons tag rest ih =>
    intro seen count
    simp only [sanitizeAux]
    rcases hst : sanitizeTag tag with _ | u <;> simp only [hst]
    · exact ih seen count
    · by_cases hm : strLower u ∈ seen
      · simp only [if_pos hm]
        exact ih seen count
      · simp only [if_neg hm]
        by_cases hq : maxTags ≤ count + 1
        · simp only [if_pos hq]
          exact ⟨Or.inl rfl, trivial⟩
        · simp only [if_neg hq]
          exact ⟨Or.inr (by omega), ih (strLower u :: seen) (count + 1)⟩

theorem sanitizeAux_replay (maxTags : Nat) :
    ∀ (out seen : List String) (count : Nat),
      (∀ t ∈ out, sanitizeTag t = some t) →
      ((out.map strLower).Nodup) →
      (∀ t ∈ out, strLower t ∉ seen) →
      okCount maxTags count out →
      sanitizeAux maxTags out seen count = out := by
  intro out
  induction out with
  | nil => intro seen count _ _ _ _; rfl
  | cons t rest ih =>
    intro seen count hfix hnd hfr hok
    have hok2 : (rest = [] ∨ count + 1 < maxTags) ∧ okCount maxTags (count + 1) rest := hok
    simp only [sanitizeAux]
    simp only [hfix t (List.mem_cons_self t rest)]
    rw [if_neg (hfr t (List.mem_cons_self t rest))]
    by_cases hq : maxTags ≤ count + 1
    · rw [if_pos hq]
      rcases hok2.1 with hrest | hlt
      · rw [hrest]
      · exact absurd hlt (by omega)
    · rw [if_neg hq]
      congr 1
      apply ih
      · intro u hu
        exact hfix u (List.mem_cons_of_mem _ hu)
      · rw [List.map_cons, List.nodup_cons] at hnd
        exact hnd.2
      · intro u hu
        have hne : strLower u ≠ strLower t := by
          rw [List.map_cons, List.nodup_cons] at hnd
          intro heq
          exact hnd.1 (heq ▸ List.mem_map_of_mem strLower hu)
        intro hmem
        rcases List.mem_cons.mp hmem with h1 | h2
        · exact hne h1
        · exact hfr u (List.mem_cons_of_mem _ hu) h2
      · exact hok2.2

theorem sanitizeAux_sublist (maxTags : Nat) :
    ∀ (l seen : List String) (count : Nat),
      (sanitizeAux maxTags l seen count).Sublist (l.filterMap sanitizeTag) := by
  intro l
  induction l with
  | nil => intro seen count; simp [sanitizeAux]
  | cons tag rest ih =>
    intro seen count
    simp only [sanitizeAux, List.filterMap_cons]
    rcases hst : sanitizeTag tag with _ | u <;> simp only [hst]
    · exact ih seen count
    · by_cases hm : strLower u ∈ seen
      · simp only [if_pos hm]
        exact List.Sublist.cons u (ih seen count)
      · simp only [if_neg hm]
        by_cases hq : maxTags ≤ count + 1
        · simp only [if_pos hq]
          exact List.Sublist.cons₂ u (List.nil_sublist _)
        · simp only [if_neg hq]
          exact List.Sublist.cons₂ u (ih (strLower u :: seen) (count + 1))

theorem sanitizeAux_length_le (maxTags : Nat) :
    ∀ (l seen : List String) (count : Nat),
      (sanitizeAux maxTags l seen count).length ≤ max (maxTags - count) 1 := by
  intro l
  induction l with
  | nil => intro seen count; simp [sanitizeAux]
  | cons tag rest ih =>
    intro seen count
    simp only [sanitizeAux]
    rcases hst : sanitizeTag tag with _ | u <;> simp only [hst]
    · exact ih seen count
    · by_cases hm : strLower u ∈ seen
      · simp only [if_pos hm]
        exact ih seen count
      · simp only [if_neg hm]
        by_cases hq : maxTags ≤ count + 1
        · simp only [if_pos hq]
          simp only [List.length_singleton]
          exact le_max_right _ _
        · simp only [if_neg hq]
          have := ih (strLower u :: seen) (count + 1)
          simp only [List.length_cons]
          omega

/-- C7: hashtag sanitisation is idempotent: for every candidate list and
every cap, sanitising the sanitised output returns it unchanged. -/
theorem C7_sanitize_idempotent (tags : List String) (maxTags : Nat) :
    _sanitize_hashtags (_sanitize_hashtags tags maxTags) maxTags =
      _sanitize_hashtags tags maxTags := by
  unfold _sanitize_hashtags
  apply sanitizeAux_replay
  · intro t ht
    obtain ⟨tag, _, hst⟩ := sanitizeAux_mem maxTags tags [] 0 t ht
    obtain ⟨core, rfl, hne, hall⟩ := sanitizeTag_some hst
    exact sanitizeTag_fixed hne hall
  · exact (sanitizeAux_nodup_fresh maxTags tags [] 0).1
  · intro t _
    exact List.not_mem_nil _
  · exact sanitizeAux_okCount maxTags tags [] 0

/-- C8 counterexample: the cap is checked only after appending, so with
maxTags = 0 the sanitiser still returns one tag and the claimed bound
(output length at most maxTags) fails. -/
theorem C8_counterexample_maxTags_zero :
    ¬ ((_sanitize_hashtags ["ab"] 0).length ≤ 0) := by decide

/-- C8 amended: every output of the sanitiser is a hash sign followed by a
nonempty run of alphanumeric-or-underscore characters (so candidates whose
sanitised form has length at most one are discarded), no two outputs are
case-insensitively equal, the output is a subsequence of the per-candidate
sanitised forms in first-seen order, and the output length is at most
max(maxTags, 1), hence at most maxTags whenever maxTags is at least one. -/
theorem C8_sanitize_shape (tags : List String) (maxTags : Nat) :
    (∀ t ∈ _sanitize_hashtags tags maxTags, ∃ core : List Char,
        t = String.mk ('#' :: core) ∧ core ≠ [] ∧ ∀ c ∈ core, isTagChar c = true) ∧
    ((_sanitize_hashtags tags maxTags).map strLower).Nodup ∧
    (_sanitize_hashtags tags maxTags).Sublist (tags.filterMap sanitizeTag) ∧
    (_sanitize_hashtags tags maxTags).length ≤ max maxTags 1 := by
  refine ⟨?_, ?_, ?_, ?_⟩
  · intro t ht
    obtain ⟨tag, _, hst⟩ := sanitizeAux_mem maxTags tags [] 0 t ht
    exact sanitizeTag_some hst
  · exact (sanitizeAux_nodup_fresh maxTags tags [] 0).1
  · exact sanitizeAux_sublist maxTags tags [] 0
  · have h := sanitizeAux_length_le maxTags tags [] 0
    simpa using h
